import Mathlib

/-!
Shallow embedding of the connection-registry and message fan-out core of
isnastish/zchat: `pkg/session/connection.go` and `pkg/session/message.go`.

The registry (`connectionMap.connections`, a Go map keyed by remote ip
address) is modelled as an association list of `connection` records; Go map
iteration order is unspecified, so the list order stands for one arbitrary
iteration order.  Network writes (`util.WriteBytes`, from the repository's
`pkg/utilities` package, which is not part of the provided sources) are
modelled by an oracle parameter giving, per connection and payload, the
number of bytes written and whether an error occurred.  The registry
operations under a claim are pure functions of the registry value; the
reader/writer lock discipline of the source serialises them against
structural mutation, which the embedding reflects by never mutating the
registry inside a dispatch.
-/

namespace ZChat

/-- Enum connectionState from connection.go: it has exactly the two values
`pendingState = 0` and `connectedState = 1`; there is no third
(closed/terminal) value in the source. -/
inductive connectionState where
  | pendingState
  | connectedState
  deriving DecidableEq, Repr

export connectionState (pendingState connectedState)

/-- The participant reference held by a connection; only the `Username`
identity is consulted by the session code under verification. -/
structure Participant where
  Username : String
  deriving DecidableEq, Repr

/-- Struct connection from connection.go, restricted to the fields the
registry operations read: the registry key `ipAddr`, the participant
reference and the lifecycle `state`.  The socket, context/cancel pair,
timeout and abort channel are modelled separately by the watchdog state
machine and the write oracle. -/
structure connection where
  ipAddr : String
  participant : Participant
  state : connectionState
  deriving DecidableEq, Repr

/-- The registry contents: `connectionMap.connections`, a map keyed by
`ipAddr`, embedded as an association list (keys intended unique). -/
abbrev connectionMap := List connection

/-- Modelled from the spec: `types.ChatMessage` (package `pkg/types` is not
among the provided sources) — the participant-originated envelope with
sender id, send time and payload (`Contents`, a byte buffer, modelled as a
string). -/
structure ChatMessage where
  Sender : String
  SentTime : String
  Contents : String
  deriving DecidableEq, Repr

/-- Modelled from the spec: `types.SysMessage` (package `pkg/types` is not
among the provided sources) — the server-originated envelope with an
optional recipient id (empty string meaning broadcast-to-all) and the
payload. -/
structure SysMessage where
  Recipient : String
  Contents : String
  deriving DecidableEq, Repr

/-- Modelled from the spec: `util.WriteBytes(conn, buf)` (package
`pkg/utilities` is not among the provided sources) writes the buffer to the
connection's socket and returns the number of bytes written together with
an error indication.  A dispatch run is parametrised by such an oracle;
`fullWriteOracle` is the healthy network where every write succeeds in
full. -/
def WriteOracle := connection → String → Nat × Bool

/-- The healthy write oracle: every write writes the whole payload and
reports no error. -/
def fullWriteOracle : WriteOracle := fun _ payload => (payload.length, false)

/-- Method matchState of connection from connection.go. -/
def matchState (c : connection) (s : connectionState) : Bool :=
  c.state == s

/-- Canonical chat line built at connection.go:164 via
`util.Fmtln("{%s:%s} %s", msg.Sender, msg.SentTime, msg.Contents)`.  The
format string is taken from the source; `Fmtln` itself (missing
`pkg/utilities`) is modelled from the spec as sprintf plus a trailing
newline. -/
def fmtChatLine (sender sentTime contents : String) : String :=
  "\x7b" ++ sender ++ ":" ++ sentTime ++ "\x7d " ++ contents ++ "\n"

/-- ASCII model of Go's `strings.EqualFold`: case-insensitive equality. -/
def equalFold (a b : String) : Bool :=
  a.toList.map Char.toLower == b.toList.map Char.toLower

/-- Go map lookup `cm.connections[ip]` on the association-list model:
first entry whose key matches. -/
def lookupConn : connectionMap → String → Option connection
  | [], _ => none
  | cn :: rest, ip => if cn.ipAddr == ip then some cn else lookupConn rest ip

/-- Predicate `_doesConnExist` from connection.go. -/
def doesConnExist (cm : connectionMap) (ip : String) : Bool :=
  (lookupConn cm ip).isSome

/-- Operation addConn from connection.go: the bare map assignment
`cm.connections[conn.ipAddr] = conn` — no presence check, so an existing
entry under the same key is overwritten. -/
def addConn (cm : connectionMap) (c : connection) : connectionMap :=
  if doesConnExist cm c.ipAddr then
    cm.map (fun cn => if cn.ipAddr == c.ipAddr then c else cn)
  else
    cm ++ [c]

/-- The Go-side `log.Logger.Panic` message on a missing key, surfaced as an
`Except.error` value so the fatal path is observable. -/
def connMissingPanic (ip : String) : String :=
  "Connection \x7b" ++ ip ++ "\x7d doesn't exist"

/-- Operation removeConn from connection.go: panics when the key is absent,
otherwise deletes the entry. -/
def removeConn (cm : connectionMap) (ip : String) :
    Except String connectionMap :=
  if doesConnExist cm ip then
    Except.ok (cm.filter (fun cn => cn.ipAddr != ip))
  else
    Except.error (connMissingPanic ip)

/-- Operation markAsConnected from connection.go: panics when the key is
absent, otherwise sets the entry's state to `connectedState`. -/
def markAsConnected (cm : connectionMap) (ip : String) :
    Except String connectionMap :=
  if doesConnExist cm ip then
    Except.ok (cm.map (fun cn =>
      if cn.ipAddr == ip then { cn with state := connectedState } else cn))
  else
    Except.error (connMissingPanic ip)

/-- Operation hasConnectedParticipant from connection.go: scans all entries
and returns true when some entry in `connectedState` has
`participant.Username` equal (case-sensitively, Go `==`) to `username`. -/
def hasConnectedParticipant : connectionMap → String → Bool
  | [], _ => false
  | cn :: rest, username =>
    if matchState cn connectedState && cn.participant.Username == username then
      true
    else
      hasConnectedParticipant rest username

/-- Operation empty from connection.go. -/
def connMapEmpty (cm : connectionMap) : Bool :=
  cm.length == 0

/-- The chat branch of `broadcastMessage` (connection.go:161-179): iterate
the registry; for each `connectedState` entry, skip the first whose
username case-insensitively equals the sender (`senderWasSkipped` flag);
write the canonical line to every other connected entry.  A write counts
toward `sentCount` iff it returns no error and its byte count equals — as
in the source — `msg.Contents.Len()`, the length of the raw payload (not
of the canonical line that was written).  Returns `sentCount` and the list
of entries a write was attempted on, in iteration order. -/
def chatLoop (write : connection → Nat × Bool) (sender : String)
    (contentsLen : Nat) : connectionMap → Bool → Nat × List connection
  | [], _ => (0, [])
  | cn :: rest, skipped =>
    if matchState cn connectedState then
      if !skipped && equalFold cn.participant.Username sender then
        chatLoop write sender contentsLen rest true
      else
        let r := write cn
        let p := chatLoop write sender contentsLen rest skipped
        ((if !r.2 && r.1 == contentsLen then p.1 + 1 else p.1), cn :: p.2)
    else
      chatLoop write sender contentsLen rest skipped

/-- Dispatch of a `*types.ChatMessage` by `broadcastMessage`
(connection.go:161-179). -/
def broadcastChat (o : WriteOracle) (cm : connectionMap) (msg : ChatMessage) :
    Nat × List connection :=
  chatLoop (fun cn => o cn (fmtChatLine msg.Sender msg.SentTime msg.Contents))
    msg.Sender msg.Contents.length cm false

/-- The broadcast arm of the system-message branch of `broadcastMessage`
(connection.go:195-204): write the raw payload to every `connectedState`
entry; a write counts iff no error and full payload length. -/
def sysLoop (write : connection → Nat × Bool) (contentsLen : Nat) :
    connectionMap → Nat × List connection
  | [] => (0, [])
  | cn :: rest =>
    if matchState cn connectedState then
      let r := write cn
      let p := sysLoop write contentsLen rest
      ((if !r.2 && r.1 == contentsLen then p.1 + 1 else p.1), cn :: p.2)
    else
      sysLoop write contentsLen rest

/-- Dispatch of a `*types.SysMessage` by `broadcastMessage`
(connection.go:181-205): when `msg.Recipient` is non-empty, look the
recipient up directly (no state check) and write the payload to it if
present; when empty, broadcast the payload to every `connectedState`
entry. -/
def broadcastSys (o : WriteOracle) (cm : connectionMap) (msg : SysMessage) :
    Nat × List connection :=
  if msg.Recipient ≠ "" then
    match lookupConn cm msg.Recipient with
    | some cn =>
      let r := o cn msg.Contents
      ((if !r.2 && r.1 == msg.Contents.length then 1 else 0), [cn])
    | none => (0, [])
  else
    sysLoop (fun cn => o cn msg.Contents) msg.Contents.length cm

/-!
The idle watchdog `disconnectIfIdle` (connection.go:73-98), embedded as a
discrete-time state machine.  The Go timer is modelled by a `deadline` and
a one-slot fire channel (`fireQueued`); the runtime delivering the fire
into the channel is a separate event (`timerExpire`, enabled only once the
deadline has passed) from the select loop consuming it (`timerC`).  The
reset branch mirrors `if !timer.Stop() { <-timer.C }; timer.Reset(timeout)`:
stop, drain a concurrently queued fire notification, restart for the full
timeout from now.  `extCancel` models an external call to the connection's
`cancel()` (graceful shutdown), `ctxDone` the select's `<-c.ctx.Done()`
branch.
-/

/-- State of one connection's watchdog task together with the resources it
touches.  `connState` is the connection's `state` field: `disconnectIfIdle`
never writes it, which the theorems below make explicit. -/
structure WatchdogState where
  connState : connectionState
  socketClosed : Bool
  cancelSignaled : Bool
  terminated : Bool
  deadline : Nat
  fireQueued : Bool
  timerActive : Bool
  deriving DecidableEq, Repr

/-- Events the watchdog loop races on (plus the runtime's timer expiry and
an external cancellation). -/
inductive WEvent where
  | timerExpire
  | timerC
  | reset
  | ctxDone
  | extCancel
  deriving DecidableEq, Repr

/-- One step of `disconnectIfIdle` at time `now`.  Once the task has
terminated (returned), every event is a no-op for it. -/
def wstep (timeout : Nat) (s : WatchdogState) (now : Nat) (e : WEvent) :
    WatchdogState :=
  if s.terminated then s else
  match e with
  | WEvent.timerExpire =>
    if s.timerActive && !s.fireQueued && decide (s.deadline ≤ now) then
      { s with fireQueued := true, timerActive := false }
    else s
  | WEvent.timerC =>
    if s.fireQueued then
      { s with socketClosed := true, cancelSignaled := true,
               terminated := true, fireQueued := false }
    else s
  | WEvent.reset =>
    let s1 := if s.fireQueued then { s with fireQueued := false } else s
    { s1 with timerActive := true, deadline := now + timeout }
  | WEvent.ctxDone =>
    if s.cancelSignaled then { s with terminated := true } else s
  | WEvent.extCancel =>
    { s with cancelSignaled := true }

/-- Run the watchdog over a timed event trace. -/
def wrun (timeout : Nat) (s : WatchdogState) :
    List (Nat × WEvent) → WatchdogState
  | [] => s
  | (now, e) :: rest => wrun timeout (wstep timeout s now e) rest

/-- A fresh watchdog as started for a connection whose timer was set at
time 0 with the given timeout. -/
def initWatchdog (connState0 : connectionState) (timeout : Nat) :
    WatchdogState :=
  { connState := connState0, socketClosed := false, cancelSignaled := false,
    terminated := false, deadline := timeout, fireQueued := false,
    timerActive := true }

/-- Safety invariant parameterised by the time `t` of the latest reset:
the socket is not closed, and while the task lives no fire notification is
pending and an active timer cannot fire before `t + timeout`. -/
def WInv (t timeout : Nat) (s : WatchdogState) : Prop :=
  s.socketClosed = false ∧
    (s.terminated = false →
      s.fireQueued = false ∧
        (s.timerActive = true → t + timeout ≤ s.deadline))

/-!
Rendering from message.go: struct Message and function FmtMessage.  Go's
`m.time.Format(time.TimeOnly)` renders the wall-clock time as zero-padded
`HH:MM:SS`; the time value is embedded as its hour/minute/second fields and
the format as decimal rendering padded to two digits.  Go's `%18s` verb
right-justifies the operand to a minimum width of 18 by left-padding with
spaces.
-/

/-- Wall-clock fields of the Go `time.Time` carried by a message. -/
structure ClockTime where
  hour : Nat
  minute : Nat
  second : Nat
  deriving DecidableEq, Repr

/-- Decimal rendering zero-padded to two digits, as Go's `Format` does for
each of the `15`, `04`, `05` components. -/
def pad2 (n : Nat) : String :=
  if n < 10 then "0" ++ toString n else toString n

/-- Rendering of `m.time.Format(t.TimeOnly)`: the fixed `HH:MM:SS`
layout. -/
def formatTimeOnly (t : ClockTime) : String :=
  pad2 t.hour ++ ":" ++ pad2 t.minute ++ ":" ++ pad2 t.second

/-- Go's `%18s`: right-justify to minimum width 18 by left-padding with
spaces; longer operands are left unchanged. -/
def rightJustify18 (s : String) : String :=
  if s.length < 18 then String.mk (List.replicate (18 - s.length) ' ') ++ s
  else s

/-- Struct Message from message.go, restricted to the unexported fields
that `FmtMessage` reads. -/
structure Message where
  sender : String
  ownedBySession : Bool
  data : String
  time : ClockTime
  deriving DecidableEq, Repr

/-- Function FmtMessage from message.go: session-owned messages render as
`"HH:MM:SS: <data>"`, relayed messages as
`"HH:MM:SS: [<sender %18s>]: <data>"`. -/
def FmtMessage (m : Message) : String :=
  if m.ownedBySession then
    formatTimeOnly m.time ++ ": " ++ m.data
  else
    formatTimeOnly m.time ++ ": [" ++ rightJustify18 m.sender ++ "]: " ++ m.data

/-- The `HH:MM:SS` shape: exactly eight characters, digits in the hour,
minute and second positions and colons at positions 2 and 5. -/
def isHHMMSS (s : String) : Bool :=
  match s.toList with
  | [d1, d2, c1, d3, d4, c2, d5, d6] =>
    d1.isDigit && d2.isDigit && c1 == ':' && d3.isDigit && d4.isDigit &&
      c2 == ':' && d5.isDigit && d6.isDigit
  | _ => false

/-!
Concrete fixtures used by the evaluation theorems and witnesses: the
three-participant scenario of the spec and a few degenerate registries.
-/

/-- Connection of participant alice, authenticated (connected). -/
def aliceConn : connection := ⟨"10.0.0.1", ⟨"alice"⟩, connectedState⟩

/-- Connection of participant bob, authenticated (connected). -/
def bobConn : connection := ⟨"10.0.0.2", ⟨"bob"⟩, connectedState⟩

/-- Connection of participant carol, authenticated (connected). -/
def carolConn : connection := ⟨"10.0.0.3", ⟨"carol"⟩, connectedState⟩

/-- Registry with alice, bob and carol all connected. -/
def demoRegistry : connectionMap := [aliceConn, bobConn, carolConn]

/-- Connection of participant bob still pending (not yet authenticated). -/
def pendingBob : connection := ⟨"10.0.0.2", ⟨"bob"⟩, pendingState⟩

/-- A pending connection used to demonstrate key collisions in addConn. -/
def pendingDup : connection := ⟨"10.0.0.9", ⟨"dave"⟩, pendingState⟩

/-- A second connection under the same registry key as `pendingDup`. -/
def connectedDup : connection := ⟨"10.0.0.9", ⟨"dave"⟩, connectedState⟩

/-- A watchdog whose timer has already fired (fire notification queued)
but whose select loop has not yet consumed it. -/
def firedWatchdog : WatchdogState :=
  ⟨connectedState, false, false, false, 100, true, false⟩

/-!
Helper lemmas shared by the claim theorems.
-/

/-- With the sender already skipped, the chat loop writes to exactly the
connected entries, in iteration order. -/
theorem chatLoop_snd_skipped (w : connection → Nat × Bool) (s : String)
    (len : Nat) (l : connectionMap) :
    (chatLoop w s len l true).2 =
      l.filter (fun cn => matchState cn connectedState) := by
  induction l with
  | nil => rfl
  | cons cn rest ih =>
    by_cases h : matchState cn connectedState = true
    · simp [chatLoop, List.filter_cons, h, ih]
    · simp [chatLoop, List.filter_cons, h, ih]

/-- With the sender not yet skipped, the chat loop writes to the connected
entries minus the first one whose username case-insensitively matches the
sender. -/
theorem chatLoop_snd_unskipped (w : connection → Nat × Bool) (s : String)
    (len : Nat) (l : connectionMap) :
    (chatLoop w s len l false).2 =
      List.eraseP (fun cn => equalFold cn.participant.Username s)
        (l.filter (fun cn => matchState cn connectedState)) := by
  induction l with
  | nil => rfl
  | cons cn rest ih =>
    by_cases h : matchState cn connectedState = true
    · by_cases hf : equalFold cn.participant.Username s = true
      · simp [chatLoop, List.filter_cons, h, hf, List.eraseP_cons,
          chatLoop_snd_skipped]
      · simp [chatLoop, List.filter_cons, h, hf, List.eraseP_cons, ih]
    · simp [chatLoop, List.filter_cons, h, ih]

/-- The system broadcast loop writes to exactly the connected entries, in
iteration order. -/
theorem sysLoop_snd (w : connection → Nat × Bool) (len : Nat)
    (l : connectionMap) :
    (sysLoop w len l).2 =
      l.filter (fun cn => matchState cn connectedState) := by
  induction l with
  | nil => rfl
  | cons cn rest ih =>
    by_cases h : matchState cn connectedState = true
    · simp [sysLoop, List.filter_cons, h, ih]
    · simp [sysLoop, List.filter_cons, h, ih]

/-- The system broadcast loop counts exactly the connected entries whose
write returned no error and the full payload length. -/
theorem sysLoop_fst (w : connection → Nat × Bool) (len : Nat)
    (l : connectionMap) :
    (sysLoop w len l).1 =
      (l.filter (fun cn =>
        matchState cn connectedState && (!(w cn).2 && (w cn).1 == len))).length := by
  induction l with
  | nil => rfl
  | cons cn rest ih =>
    by_cases h : matchState cn connectedState = true
    · by_cases hs : (!(w cn).2 && (w cn).1 == len) = true
      · simp [sysLoop, List.filter_cons, h, hs, ih]
      · simp [sysLoop, List.filter_cons, h, hs, ih]
    · simp [sysLoop, List.filter_cons, h, ih]

/-- Erasing at most one element loses at most one element of the list. -/
theorem eraseP_length_succ_ge {α : Type} (p : α → Bool) (l : List α) :
    (List.eraseP p l).length + 1 ≥ l.length := by
  induction l with
  | nil => simp
  | cons a rest ih =>
    by_cases h : p a = true
    · simp [List.eraseP_cons, h]
    · simp [List.eraseP_cons, h]
      omega

/-- Overwriting the entry under an existing key makes the new connection
the one found under that key. -/
theorem lookupConn_replace (cm : connectionMap) (c : connection)
    (h : doesConnExist cm c.ipAddr = true) :
    lookupConn (cm.map (fun cn => if cn.ipAddr == c.ipAddr then c else cn))
      c.ipAddr = some c := by
  induction cm with
  | nil => simp [doesConnExist, lookupConn] at h
  | cons cn rest ih =>
    by_cases hx : (cn.ipAddr == c.ipAddr) = true
    · simp [lookupConn, hx]
    · have h' : doesConnExist rest c.ipAddr = true := by
        simpa [doesConnExist, lookupConn, hx] using h
      have hrec := ih h'
      simp only [List.map_cons]
      rw [if_neg hx, lookupConn, if_neg hx]
      exact hrec

/-- Appending a connection under a fresh key makes it the one found under
that key. -/
theorem lookupConn_append_absent (cm : connectionMap) (c : connection)
    (h : lookupConn cm c.ipAddr = none) :
    lookupConn (cm ++ [c]) c.ipAddr = some c := by
  induction cm with
  | nil => simp [lookupConn]
  | cons cn rest ih =>
    by_cases hx : (cn.ipAddr == c.ipAddr) = true
    · simp [lookupConn, hx] at h
    · rw [lookupConn] at h
      rw [if_neg (by simp [hx])] at h
      simpa [lookupConn, hx] using ih h

/-- After addConn, the added connection is the one found under its key,
whether or not the key was already present. -/
theorem lookupConn_addConn (cm : connectionMap) (c : connection) :
    lookupConn (addConn cm c) c.ipAddr = some c := by
  by_cases h : doesConnExist cm c.ipAddr = true
  · rw [addConn, if_pos h]
    exact lookupConn_replace cm c h
  · have h' : lookupConn cm c.ipAddr = none := by
      rcases hh : lookupConn cm c.ipAddr with _ | cn
      · rfl
      · exact absurd (by simp [doesConnExist, hh]) h
    rw [addConn, if_neg h]
    exact lookupConn_append_absent cm c h'

/-- One watchdog step preserves the reset invariant while the current time
stays inside the window that opened at the reset instant `t`. -/
theorem wstep_WInv (t timeout now : Nat) (e : WEvent) (s : WatchdogState)
    (h : WInv t timeout s) (h1 : t ≤ now) (h2 : now < t + timeout) :
    WInv t timeout (wstep timeout s now e) := by
  obtain ⟨hc, hrest⟩ := h
  by_cases ht : s.terminated = true
  · simp [wstep, ht]
    exact ⟨hc, fun hf => absurd ht (by simp [hf])⟩
  · have ht' : s.terminated = false := by
      cases hx : s.terminated
      · rfl
      · exact absurd hx ht
    obtain ⟨hfq, hact⟩ := hrest ht'
    cases e with
    | timerExpire =>
      have hcond : (s.timerActive && !s.fireQueued && decide (s.deadline ≤ now)) = false := by
        cases hta : s.timerActive
        · simp
        · have := hact hta
          have : ¬(s.deadline ≤ now) := by omega
          simp [this]
      simp [wstep, ht', hcond]
      exact ⟨hc, fun _ => ⟨hfq, hact⟩⟩
    | timerC =>
      simp [wstep, ht', hfq]
      exact ⟨hc, fun _ => ⟨hfq, hact⟩⟩
    | reset =>
      have hres : wstep timeout s now WEvent.reset =
          { s with timerActive := true, deadline := now + timeout } := by
        simp [wstep, ht', hfq]
      rw [hres]
      exact ⟨hc, fun _ => ⟨hfq, fun _ => by show t + timeout ≤ now + timeout; omega⟩⟩
    | ctxDone =>
      by_cases hcs : s.cancelSignaled = true
      · simp [wstep, ht', hcs]
        exact ⟨hc, fun hf => by simp at hf⟩
      · simp [wstep, ht', hcs]
        exact ⟨hc, fun _ => ⟨hfq, hact⟩⟩
    | extCancel =>
      simp [wstep, ht']
      exact ⟨hc, fun _ => ⟨hfq, hact⟩⟩

/-- A whole trace of events inside the window preserves the reset
invariant. -/
theorem wrun_WInv (t timeout : Nat) (evs : List (Nat × WEvent))
    (s : WatchdogState) (h : WInv t timeout s)
    (hevs : ∀ p ∈ evs, t ≤ p.1 ∧ p.1 < t + timeout) :
    WInv t timeout (wrun timeout s evs) := by
  induction evs generalizing s with
  | nil => exact h
  | cons p rest ih =>
    have hp := hevs p (List.mem_cons_self p rest)
    exact ih (wstep timeout s p.1 p.2)
      (wstep_WInv t timeout p.1 p.2 s h hp.1 hp.2)
      (fun q hq => hevs q (List.mem_cons_of_mem p hq))

/-- For any component value below 60, pad2 yields exactly two decimal
digits. -/
theorem pad2_shape (n : Nat) (h : n < 60) :
    ∃ c1 c2, (pad2 n).toList = [c1, c2] ∧ c1.isDigit = true ∧ c2.isDigit = true := by
  have hb : ((pad2 n).toList.length = 2 ∧ (pad2 n).toList.all Char.isDigit = true) := by
    revert h
    revert n
    decide
  obtain ⟨hlen, hall⟩ := hb
  obtain ⟨c1, c2, hl⟩ := List.length_eq_two.mp hlen
  refine ⟨c1, c2, hl, ?_, ?_⟩
  · exact List.all_eq_true.mp hall c1 (by rw [hl]; exact List.mem_cons_self _ _)
  · exact List.all_eq_true.mp hall c2 (by rw [hl]; simp)

/-- For in-range clock fields the rendered timestamp has the fixed
`HH:MM:SS` shape. -/
theorem formatTimeOnly_isHHMMSS (t : ClockTime) (hh : t.hour < 24)
    (hm : t.minute < 60) (hs : t.second < 60) :
    isHHMMSS (formatTimeOnly t) = true := by
  obtain ⟨a1, a2, ha, da1, da2⟩ := pad2_shape t.hour (by omega)
  obtain ⟨b1, b2, hb, db1, db2⟩ := pad2_shape t.minute hm
  obtain ⟨c1, c2, hcc, dc1, dc2⟩ := pad2_shape t.second hs
  have hdata : (formatTimeOnly t).toList =
      [a1, a2, ':', b1, b2, ':', c1, c2] := by
    show ((pad2 t.hour ++ ":" ++ pad2 t.minute ++ ":" ++ pad2 t.second)).toList = _
    have : ∀ x y : String, (x ++ y).toList = x.toList ++ y.toList := by
      intro x y
      exact String.data_append x y
    rw [this, this, this, this, ha, hb, hcc]
    rfl
  rw [isHHMMSS, hdata]
  simp [da1, da2, db1, db2, dc1, dc2]

/-!
Claim theorems.
-/

/-- C1: on the spec's scenario — alice, bob and carol all connected, alice
sending chat payload "hi" with every write succeeding in full — the code
writes the canonical line to bob and carol but returns deliveredCount 0,
not 2: the success check at connection.go:173 compares the bytes written
(the canonical line, 20 bytes) against `msg.Contents.Len()` (the raw
payload, 2 bytes), so every fully successful chat write is recorded as a
failure. -/
theorem chat_delivered_count_zero_on_full_success :
    broadcastChat fullWriteOracle demoRegistry ⟨"alice", "12:00:00", "hi"⟩
      = (0, [bobConn, carolConn]) ∧
    (fmtChatLine "alice" "12:00:00" "hi").length = 20 ∧
    ("hi" : String).length = 2 := by decide

/-- C2 counterexample: a Directed SystemMessage whose recipient is present
but still pending is written to — dispatch performs no state check on the
directed path (connection.go:183-192). -/
theorem directed_sys_writes_to_pending :
    (broadcastSys fullWriteOracle [pendingBob] ⟨"10.0.0.2", "x"⟩).2 = [pendingBob]
    ∧ pendingBob.state = pendingState := by decide

/-- C2 (amended): broadcast dispatch — chat, and system with empty
recipient — attempts writes only on entries in `connectedState`, while a
Directed SystemMessage writes to its recipient exactly when the id is
present in the registry, regardless of the recipient's state. -/
theorem dispatch_writes_only_connected (o : WriteOracle) (cm : connectionMap)
    (msg : ChatMessage) (sys : SysMessage) :
    ((broadcastChat o cm msg).2.all (fun cn => matchState cn connectedState) = true)
    ∧ ((broadcastSys o cm sys).2 =
        if sys.Recipient = ""
        then cm.filter (fun cn => matchState cn connectedState)
        else (lookupConn cm sys.Recipient).elim [] (fun cn => [cn])) := by
  constructor
  · rw [broadcastChat, chatLoop_snd_unskipped]
    rw [List.all_eq_true]
    intro cn hcn
    have hmem := (List.eraseP_sublist _).subset hcn
    exact (List.mem_filter.mp hmem).2
  · by_cases hr : sys.Recipient = ""
    · simp [broadcastSys, hr, sysLoop_snd]
    · simp only [broadcastSys, hr, if_neg hr, ne_eq, not_false_iff, if_true]
      cases h : lookupConn cm sys.Recipient with
      | none => simp
      | some cn => simp

/-- C3 counterexample: addConn on a registry that already holds the
connection's id does not fail — it completes and silently overwrites the
existing entry (the map assignment at connection.go:108 has no presence
check). -/
theorem addConn_overwrites_duplicate :
    addConn [pendingDup] connectedDup = [connectedDup] := by decide

/-- C3 (amended): removeConn and markAsConnected fail fatally (the
modelled `log.Logger.Panic`) when the id is absent, while addConn enforces
no precondition: it always succeeds, and afterwards its connection is the
entry found under its id, overwriting any previous entry with that id. -/
theorem registry_mutator_preconditions (cm : connectionMap) (ip : String)
    (c : connection) (h : lookupConn cm ip = none) :
    removeConn cm ip = Except.error (connMissingPanic ip) ∧
    markAsConnected cm ip = Except.error (connMissingPanic ip) ∧
    lookupConn (addConn cm c) c.ipAddr = some c := by
  refine ⟨?_, ?_, lookupConn_addConn cm c⟩
  · simp [removeConn, doesConnExist, h]
  · simp [markAsConnected, doesConnExist, h]

/-- C3 witness: the amended claim evaluated on a concrete registry. -/
theorem registry_mutator_preconditions_witness :
    removeConn [pendingDup] "10.0.0.1" = Except.error (connMissingPanic "10.0.0.1") ∧
    markAsConnected [pendingDup] "10.0.0.1" = Except.error (connMissingPanic "10.0.0.1") ∧
    lookupConn (addConn [pendingDup] connectedDup) connectedDup.ipAddr = some connectedDup :=
  registry_mutator_preconditions [pendingDup] "10.0.0.1" connectedDup (by decide)

/-- C4 counterexample: a connected connection whose idle timer fires at
time 150 with timeout 100 has its socket closed, its cancellation token
signaled and its watchdog terminated, but its state field still reads
`connectedState` — it does not become a Closed value, and the source enum
has no Closed value at all. -/
theorem watchdog_timeout_leaves_state_enum :
    (wrun 100 (initWatchdog connectedState 100)
        [(150, WEvent.timerExpire), (150, WEvent.timerC)]).socketClosed = true ∧
    (wrun 100 (initWatchdog connectedState 100)
        [(150, WEvent.timerExpire), (150, WEvent.timerC)]).cancelSignaled = true ∧
    (wrun 100 (initWatchdog connectedState 100)
        [(150, WEvent.timerExpire), (150, WEvent.timerC)]).terminated = true ∧
    (wrun 100 (initWatchdog connectedState 100)
        [(150, WEvent.timerExpire), (150, WEvent.timerC)]).connState = connectedState := by
  decide

/-- C4 (amended): when the idle timer's fire notification is consumed, the
watchdog closes the socket, signals the shared cancellation token and
terminates its task; the connection's state field is left unchanged, and
the state enum has exactly the two values Pending and Connected — no
Closed value exists. -/
theorem watchdog_timeout_fires (timeout now : Nat) (s : WatchdogState)
    (ht : s.terminated = false) (hf : s.fireQueued = true) :
    (wstep timeout s now WEvent.timerC).socketClosed = true ∧
    (wstep timeout s now WEvent.timerC).cancelSignaled = true ∧
    (wstep timeout s now WEvent.timerC).terminated = true ∧
    (wstep timeout s now WEvent.timerC).connState = s.connState ∧
    (∀ st : connectionState, st = pendingState ∨ st = connectedState) := by
  have : wstep timeout s now WEvent.timerC =
      { s with socketClosed := true, cancelSignaled := true,
               terminated := true, fireQueued := false } := by
    simp [wstep, ht, hf]
  rw [this]
  refine ⟨rfl, rfl, rfl, rfl, ?_⟩
  intro st
  cases st
  · exact Or.inl rfl
  · exact Or.inr rfl

/-- C4 witness: the timeout path evaluated on a watchdog with a queued
fire notification. -/
theorem watchdog_timeout_fires_witness :
    (wstep 100 firedWatchdog 150 WEvent.timerC).socketClosed = true ∧
    (wstep 100 firedWatchdog 150 WEvent.timerC).connState = connectedState :=
  ⟨(watchdog_timeout_fires 100 150 firedWatchdog rfl rfl).1,
   (watchdog_timeout_fires 100 150 firedWatchdog rfl rfl).2.2.2.1⟩

/-- C5: a reset at time `t` stops the timer, drains a concurrently queued
fire notification, and restarts the timer for the full timeout from `t`;
consequently no trace of events all occurring before `t + timeout` can
close the socket.  `t` and the starting state are arbitrary, so every
reset reopens the full window and no maximum session lifetime exists. -/
theorem watchdog_reset_defers_close (timeout t : Nat) (s : WatchdogState)
    (evs : List (Nat × WEvent)) (hclosed : s.socketClosed = false)
    (hevs : ∀ p ∈ evs, t ≤ p.1 ∧ p.1 < t + timeout) :
    (wrun timeout (wstep timeout s t WEvent.reset) evs).socketClosed = false ∧
    (s.terminated = false →
      (wstep timeout s t WEvent.reset).fireQueued = false ∧
      (wstep timeout s t WEvent.reset).deadline = t + timeout) := by
  have hstart : WInv t timeout (wstep timeout s t WEvent.reset) := by
    by_cases ht : s.terminated = true
    · have : wstep timeout s t WEvent.reset = s := by simp [wstep, ht]
      rw [this]
      exact ⟨hclosed, fun hf => absurd ht (by simp [hf])⟩
    · have ht' : s.terminated = false := by
        cases hx : s.terminated
        · rfl
        · exact absurd hx ht
      by_cases hfq : s.fireQueued = true
      · have : wstep timeout s t WEvent.reset =
            { s with fireQueued := false, timerActive := true,
                     deadline := t + timeout } := by
          simp [wstep, ht', hfq]
        rw [this]
        exact ⟨hclosed, fun _ => ⟨rfl, fun _ => le_refl _⟩⟩
      · have hfq' : s.fireQueued = false := by
          cases hx : s.fireQueued
          · rfl
          · exact absurd hx hfq
        have : wstep timeout s t WEvent.reset =
            { s with timerActive := true, deadline := t + timeout } := by
          simp [wstep, ht', hfq']
        rw [this]
        exact ⟨hclosed, fun _ => ⟨hfq', fun _ => le_refl _⟩⟩
  refine ⟨(wrun_WInv t timeout evs _ hstart hevs).1, ?_⟩
  intro ht'
  by_cases hfq : s.fireQueued = true
  · have : wstep timeout s t WEvent.reset =
        { s with fireQueued := false, timerActive := true,
                 deadline := t + timeout } := by
      simp [wstep, ht', hfq]
    rw [this]
    exact ⟨rfl, rfl⟩
  · have hfq' : s.fireQueued = false := by
      cases hx : s.fireQueued
      · rfl
      · exact absurd hx hfq
    have : wstep timeout s t WEvent.reset =
        { s with timerActive := true, deadline := t + timeout } := by
      simp [wstep, ht', hfq']
    rw [this]
    exact ⟨hfq', rfl⟩

/-- C5 witness: the spec's scenario 4 — reset at 80 with timeout 100;
neither the runtime expiry attempt at 90 nor the consumer event at 150
closes the socket, both being before 180. -/
theorem watchdog_reset_defers_close_witness :
    (wrun 100 (wstep 100 (initWatchdog connectedState 100) 80 WEvent.reset)
        [(90, WEvent.timerExpire), (150, WEvent.timerC)]).socketClosed = false :=
  (watchdog_reset_defers_close 100 80 (initWatchdog connectedState 100)
      [(90, WEvent.timerExpire), (150, WEvent.timerC)] rfl (by decide)).1

/-- C6: a chat broadcast writes to exactly the connected entries minus the
first one (in iteration order) whose username case-insensitively equals
the sender; hence at most one matching entry is skipped, the write count
is at least N-1 of the N connected entries, and when the sender matches
some connected entry it is exactly N-1. -/
theorem chat_broadcast_single_skip (o : WriteOracle) (cm : connectionMap)
    (msg : ChatMessage) :
    (broadcastChat o cm msg).2 =
      List.eraseP (fun cn => equalFold cn.participant.Username msg.Sender)
        (cm.filter (fun cn => matchState cn connectedState)) ∧
    (broadcastChat o cm msg).2.length + 1 ≥
      (cm.filter (fun cn => matchState cn connectedState)).length ∧
    ((cm.filter (fun cn => matchState cn connectedState)).any
        (fun cn => equalFold cn.participant.Username msg.Sender) = true →
      (broadcastChat o cm msg).2.length + 1 =
        (cm.filter (fun cn => matchState cn connectedState)).length) := by
  refine ⟨chatLoop_snd_unskipped _ _ _ _, ?_, ?_⟩
  · rw [broadcastChat, chatLoop_snd_unskipped]
    exact eraseP_length_succ_ge _ _
  · intro h
    rw [broadcastChat, chatLoop_snd_unskipped]
    rcases List.any_eq_true.mp h with ⟨cn, hmem, hp⟩
    exact List.length_eraseP_add_one hmem hp

/-- C6 witness: with alice, bob and carol connected and alice the sender,
exactly one of the three connected entries is skipped. -/
theorem chat_broadcast_single_skip_witness :
    (demoRegistry.filter (fun cn => matchState cn connectedState)).any
        (fun cn => equalFold cn.participant.Username "alice") = true ∧
    (broadcastChat fullWriteOracle demoRegistry ⟨"alice", "12:00:00", "hi"⟩).2.length + 1 =
      (demoRegistry.filter (fun cn => matchState cn connectedState)).length :=
  ⟨by decide,
   (chat_broadcast_single_skip fullWriteOracle demoRegistry
     ⟨"alice", "12:00:00", "hi"⟩).2.2 (by decide)⟩

/-- C7: a Directed SystemMessage to an id absent from the registry is a
silent no-op — count 0, no write, no error (and the dispatch never mutates
the registry, being a pure read of it); when the id is present and the
write fully succeeds, the payload is written to it and the count is 1. -/
theorem directed_sys_dispatch (o : WriteOracle) (cm : connectionMap)
    (r c : String) (hr : r ≠ "") :
    (lookupConn cm r = none → broadcastSys o cm ⟨r, c⟩ = (0, [])) ∧
    (∀ cn, lookupConn cm r = some cn →
      broadcastSys fullWriteOracle cm ⟨r, c⟩ = (1, [cn])) := by
  constructor
  · intro h
    simp [broadcastSys, hr, h]
  · intro cn h
    simp [broadcastSys, hr, h, fullWriteOracle]

/-- C7 witness: absent recipient yields (0, []); bob's id yields a single
delivery to bob. -/
theorem directed_sys_dispatch_witness :
    broadcastSys fullWriteOracle demoRegistry ⟨"10.0.0.9", "x"⟩ = (0, []) ∧
    broadcastSys fullWriteOracle demoRegistry ⟨"10.0.0.2", "x"⟩ = (1, [bobConn]) :=
  ⟨(directed_sys_dispatch fullWriteOracle demoRegistry "10.0.0.9" "x"
      (by decide)).1 (by decide),
   (directed_sys_dispatch fullWriteOracle demoRegistry "10.0.0.2" "x"
      (by decide)).2 bobConn (by decide)⟩

/-- C8: hasConnectedParticipant returns true exactly when some entry of
the registry is in `connectedState` and its participant username equals
the argument under case-sensitive equality; it is a pure read of the
registry. -/
theorem hasConnectedParticipant_iff (cm : connectionMap) (u : String) :
    hasConnectedParticipant cm u = true ↔
      ∃ cn ∈ cm, cn.state = connectedState ∧ cn.participant.Username = u := by
  induction cm with
  | nil => simp [hasConnectedParticipant]
  | cons cn rest ih =>
    by_cases h : (matchState cn connectedState && cn.participant.Username == u) = true
    · rw [hasConnectedParticipant, if_pos h]
      simp only [matchState, Bool.and_eq_true, beq_iff_eq] at h
      simp only [true_iff]
      exact ⟨cn, List.mem_cons_self cn rest, h.1, h.2⟩
    · rw [hasConnectedParticipant, if_neg h]
      rw [ih]
      simp only [matchState, Bool.and_eq_true, beq_iff_eq, not_and] at h
      constructor
      · rintro ⟨x, hx, h1, h2⟩
        exact ⟨x, List.mem_cons_of_mem cn hx, h1, h2⟩
      · rintro ⟨x, hx, h1, h2⟩
        rcases List.mem_cons.mp hx with rfl | hx'
        · exact absurd h2 (h (by simp [h1]))
        · exact ⟨x, hx', h1, h2⟩

/-- C8 witness: the characterisation applied to the demo registry where
bob is connected. -/
theorem hasConnectedParticipant_iff_witness :
    hasConnectedParticipant demoRegistry "bob" = true :=
  (hasConnectedParticipant_iff demoRegistry "bob").mpr
    ⟨bobConn, by decide, rfl, rfl⟩

/-- C9: FmtMessage produces exactly the two forms selected by the
ownedBySession flag — timestamp plus payload when session-owned, timestamp
plus the sender right-justified to width 18 in brackets plus payload
otherwise — and for in-range clock fields the timestamp is the fixed
eight-character `HH:MM:SS`. -/
theorem fmtMessage_two_forms (m : Message) (hh : m.time.hour < 24)
    (hm : m.time.minute < 60) (hs : m.time.second < 60) :
    isHHMMSS (formatTimeOnly m.time) = true ∧
    (m.ownedBySession = true →
      FmtMessage m = formatTimeOnly m.time ++ ": " ++ m.data) ∧
    (m.ownedBySession = false →
      FmtMessage m = formatTimeOnly m.time ++ ": [" ++
        rightJustify18 m.sender ++ "]: " ++ m.data) ∧
    (rightJustify18 m.sender).length = max 18 m.sender.length := by
  refine ⟨formatTimeOnly_isHHMMSS m.time hh hm hs, ?_, ?_, ?_⟩
  · intro h
    simp [FmtMessage, h]
  · intro h
    simp [FmtMessage, h]
  · rw [rightJustify18]
    by_cases h : m.sender.length < 18
    · rw [if_pos h]
      rw [String.length_append]
      simp
      omega
    · rw [if_neg h]
      omega

/-- C9 witness: the spec's relayed example line rendered at 12:00:00 for
sender alice and payload "hi". -/
theorem fmtMessage_two_forms_witness :
    isHHMMSS (formatTimeOnly (ClockTime.mk 12 0 0)) = true ∧
    FmtMessage (Message.mk "alice" false "hi" (ClockTime.mk 12 0 0)) =
      "12:00:00: [             alice]: hi" := by
  have h := fmtMessage_two_forms (Message.mk "alice" false "hi" (ClockTime.mk 12 0 0))
    (by decide) (by decide) (by decide)
  refine ⟨h.1, ?_⟩
  rw [h.2.2.1 rfl]
  decide

/-- C10: a SystemMessage whose recipient id is the empty string is
dispatched as a broadcast: the payload is written to exactly the connected
entries (in iteration order) and the count is the number of connected
entries whose write fully succeeded — no directed lookup of the empty id
ever happens, so a directed delivery addressed to the empty-string id is
impossible. -/
theorem sys_empty_recipient_broadcasts (o : WriteOracle) (cm : connectionMap)
    (c : String) :
    (broadcastSys o cm ⟨"", c⟩).2 =
      cm.filter (fun cn => matchState cn connectedState) ∧
    (broadcastSys o cm ⟨"", c⟩).1 =
      (cm.filter (fun cn =>
        matchState cn connectedState && (!(o cn c).2 && (o cn c).1 == c.length))).length := by
  constructor
  · simp [broadcastSys, sysLoop_snd]
  · simp [broadcastSys, sysLoop_fst]

end ZChat
